import Mathlib

/-!
Shallow embedding of `rusync`'s core pipeline module (`src/sync.rs`).

Modelling conventions:
* `u64` statistics counters are modelled as unbounded `Nat`.  Wrap-around of a
  `u64` counter would require `2 ^ 64` `add_outcome` events inside one run,
  which cannot arise from any walk; the counting semantics is the faithful
  reading at this scale.
* The `usize` arithmetic inside the progress-percent computation is modelled
  with an explicit wrap at `2 ^ 64` (release-profile two's-complement wrapping
  on a 64-bit platform), because a single in-contract `Syncing` event can make
  `done * 100` overflow.  Division by zero, which panics in Rust, is modelled
  by `Option.none`.
* Channels are modelled as lists of messages in FIFO order; each worker's loop
  becomes a fold over its input list.
* External collaborators (`fsops::get_rel_path`, `fsops::create_dir_all`,
  `fsops::sync_entries`, `fsops::copy_permissions`) are parameters of the
  functions that call them, mirroring the spec's "contract only" treatment.
* Filesystem paths are lists of components; `Path::join` on a relative path is
  list append, `Path::parent` drops the last component (and is `none` exactly
  on the empty path, as in Rust), `to_string_lossy` interleaves "/".
-/

/-- `fsops::SyncOutcome`: the closed set of per-entry outcomes. -/
inductive SyncOutcome where
  | FileCopied
  | UpToDate
  | SymlinkCreated
  | SymlinkUpdated
deriving DecidableEq, Repr

/-- `Stats` from `sync.rs`: the five `u64` counters, modelled as `Nat`. -/
structure Stats where
  total : Nat
  up_to_date : Nat
  copied : Nat
  symlink_created : Nat
  symlink_updated : Nat
deriving DecidableEq, Repr

/-- `Stats::new()`: all five counters start at zero. -/
def Stats.new : Stats :=
  { total := 0
    up_to_date := 0
    copied := 0
    symlink_created := 0
    symlink_updated := 0 }

/-- `Stats::add_outcome`: `total += 1`, then the one counter matching the
outcome variant is incremented. -/
def Stats.add_outcome (s : Stats) (outcome : SyncOutcome) : Stats :=
  let s := { s with total := s.total + 1 }
  match outcome with
  | .FileCopied => { s with copied := s.copied + 1 }
  | .UpToDate => { s with up_to_date := s.up_to_date + 1 }
  | .SymlinkUpdated => { s with symlink_updated := s.symlink_updated + 1 }
  | .SymlinkCreated => { s with symlink_created := s.symlink_created + 1 }

/-- A `Stats` value reachable from `Stats::new()` by a sequence of
`add_outcome` calls (`add_outcome` is the only mutator in the module). -/
def Stats.applyOutcomes (outcomes : List SyncOutcome) : Stats :=
  outcomes.foldl Stats.add_outcome Stats.new

/-- `Progress` from `sync.rs`: the messages on the second channel.  Field
order of `Syncing` follows the Rust struct variant: description, size, done. -/
inductive Progress where
  | DoneSyncing (outcome : SyncOutcome)
  | Syncing (description : String) (size : Nat) (done : Nat)
deriving DecidableEq, Repr

/-- `usize::MAX + 1` on a 64-bit platform: the wrap modulus of release-mode
Rust arithmetic. -/
def USIZE : Nat := 2 ^ 64

/-- The percent computation in `ProgressWorker::start`:
`((done * 100) as usize) / size`.  The multiplication wraps at `2 ^ 64`
(release profile); the division panics when `size == 0`, modelled as `none`. -/
def syncingPercent (done size : Nat) : Option Nat :=
  if size = 0 then none
  else some (done * 100 % USIZE / size)

/-- The body of the `for progress in self.input.iter()` loop of
`ProgressWorker::start`.  A `DoneSyncing` event applies `add_outcome` once; a
`Syncing` event computes the percent (a panic there aborts the worker, hence
`none`) and only prints, leaving the stats unchanged. -/
def ProgressWorker.step (s : Stats) : Progress → Option Stats
  | .DoneSyncing x => some (s.add_outcome x)
  | .Syncing _ size done =>
    match syncingPercent done size with
    | none => none
    | some _ => some s

/-- `ProgressWorker::start`: fold `step` over the input channel's events,
starting from the accumulator `s` (`Stats::new()` at the real call site);
`none` models the worker panicking mid-run. -/
def ProgressWorker.start (s : Stats) : List Progress → Option Stats
  | [] => some s
  | p :: rest =>
    match ProgressWorker.step s p with
    | none => none
    | some s2 => ProgressWorker.start s2 rest

/-- `entry::Entry` (external collaborator): a description string plus a path,
built by `Entry::new(description, path)`. -/
structure Entry where
  description : String
  path : List String
deriving DecidableEq, Repr

/-- `Entry::new`. -/
def Entry.new (description : String) (path : List String) : Entry :=
  { description := description, path := path }

/-- `Path::to_string_lossy` for a relative path made of components. -/
def pathToString (p : List String) : String :=
  String.intercalate "/" p

/-- `Path::parent` on a relative path: `none` exactly on the empty path,
otherwise the path without its last component. -/
def pathParent (p : List String) : Option (List String) :=
  if p = [] then none else some p.dropLast

/-- `SyncOptions` from `sync.rs`. -/
structure SyncOptions where
  preserve_permissions : Bool
deriving DecidableEq, Repr

/-- `SyncOptions::new()`: `preserve_permissions` defaults to `true`. -/
def SyncOptions.new : SyncOptions :=
  { preserve_permissions := true }

/-- The external `fsops` collaborators consumed by `SyncWorker::sync`,
represented by their result functions (contract only, per the spec).
`sync_entries` may also emit `Syncing` events; only its returned result is
relevant to the claims about `SyncWorker::sync` itself. -/
structure Fsops where
  get_rel_path : List String → List String → Except String (List String)
  create_dir_all : List String → Except String Unit
  sync_entries : Entry → Entry → Except String SyncOutcome
  copy_permissions : Entry → Entry → Except String Unit

/-- The observable behaviour of one `SyncWorker::sync` call: which destination
`Entry` was built (if control reached that point), whether `copy_permissions`
was invoked, and the returned `io::Result<SyncOutcome>`. -/
structure SyncCall where
  dest_entry : Option Entry
  permissions_invoked : Bool
  result : Except String SyncOutcome
deriving Repr

/-- `SyncWorker::sync`, step for step: relative path via `get_rel_path`, the
parent check with its error message, `create_dir_all` on
`destination.join(parent_rel_path)`, the destination `Entry` built from the
relative path's string and `destination.join(rel_path)`, `sync_entries`, and
`copy_permissions` exactly when `opts.preserve_permissions` holds. -/
def SyncWorker.sync (ops : Fsops) (source destination : List String)
    (src_entry : Entry) (opts : SyncOptions) : SyncCall :=
  match ops.get_rel_path src_entry.path source with
  | .error e => { dest_entry := none, permissions_invoked := false, result := .error e }
  | .ok rel_path =>
    match pathParent rel_path with
    | none =>
      { dest_entry := none
        permissions_invoked := false
        result := .error ("Could not get parent path of " ++ pathToString rel_path) }
    | some parent_rel_path =>
      match ops.create_dir_all (destination ++ parent_rel_path) with
      | .error e => { dest_entry := none, permissions_invoked := false, result := .error e }
      | .ok _ =>
        let desc := pathToString rel_path
        let dest_path := destination ++ rel_path
        let dest_entry := Entry.new desc dest_path
        match ops.sync_entries src_entry dest_entry with
        | .error e =>
          { dest_entry := some dest_entry, permissions_invoked := false, result := .error e }
        | .ok outcome =>
          if opts.preserve_permissions then
            match ops.copy_permissions src_entry dest_entry with
            | .error e =>
              { dest_entry := some dest_entry, permissions_invoked := true, result := .error e }
            | .ok _ =>
              { dest_entry := some dest_entry, permissions_invoked := true, result := .ok outcome }
          else
            { dest_entry := some dest_entry, permissions_invoked := false, result := .ok outcome }

/-- `SyncWorker::start`: the loop `for entry in self.input.iter()` with body
`self.sync(&entry, opts).unwrap(); self.output.send(DoneSyncing(outcome))`.
The input channel is represented by the per-entry results of
`SyncWorker::sync`, which is all the loop inspects.  Returns the `Progress`
events actually sent and whether the worker aborted by panicking (the
`unwrap()` on an `Err`). -/
def SyncWorker.start : List (Except String SyncOutcome) → List Progress × Bool
  | [] => ([], false)
  | .error _ :: _ => ([], true)
  | .ok outcome :: rest =>
    let r := SyncWorker.start rest
    (Progress.DoneSyncing outcome :: r.1, r.2)

/-- `Syncer::sync` after the three `join()` calls: a `none` join outcome
models a thread whose `join` failed (it panicked).  The checks happen in the
source's order: walker, then syncer, then progress. -/
def Syncer.sync (walker_outcome : Option Unit) (syncer_outcome : Option Unit)
    (progress_outcome : Option Stats) : Except String Stats :=
  match walker_outcome with
  | none => .error "Could not join walker thread"
  | some _ =>
    match syncer_outcome with
    | none => .error "Could not join syncer thread"
    | some _ =>
      match progress_outcome with
      | none => .error "Could not join progress thread"
      | some stats => .ok stats

/-- A filesystem node as seen by `WalkWorker`.  A `file` carries the
`io::Result` of `process_file` on it (abstracting the external
`get_rel_path`/parent checks, which are the only fallible steps there).  A
`dir` carries the result of `fs::read_dir`: either an error, or the listing,
whose individual items may themselves fail (the `let entry = entry?` step).  A
`symlink` carries its resolved target directly, so resolution needs no path
lookup; dangling links are not needed by any claim. -/
inductive FNode where
  | file (proc : Except String Unit)
  | dir (listing : Except String (List (Except String (String × FNode))))
  | symlink (target : FNode)

/-- Follow a chain of symlinks to the final node, as the OS does for
`metadata`-based queries. -/
def resolve : FNode → FNode
  | .symlink t => resolve t
  | n => n

/-- `Path::is_dir()`: follows symlinks (it is `fs::metadata`-based), so a
symlink whose final target is a directory answers `true`. -/
def isDir (n : FNode) : Bool :=
  match resolve n with
  | .dir _ => true
  | _ => false

/-- `fs::read_dir`: follows symlinks and yields the resolved directory's
listing, or an error for an unreadable directory or a non-directory. -/
def readDir (n : FNode) : Except String (List (Except String (String × FNode))) :=
  match resolve n with
  | .dir listing => listing
  | _ => .error "Not a directory"

/-- The `io::Result` of the fallible prefix of `WalkWorker::process_file`
(`get_rel_path` and the parent check) for a node. -/
def procResult : FNode → Except String Unit
  | .file proc => proc
  | _ => .ok ()

/-- `WalkWorker::process_file`: on success it sends one `Entry`, identified
here by its path relative to the source root; on failure nothing is sent and
the error is returned. -/
def processFile (path : List String) (n : FNode) : List (List String) × Option String :=
  match procResult n with
  | .error e => ([], some e)
  | .ok _ => ([path], none)

/-- Termination bound: symlink resolution never grows a node. -/
def sizeOf_resolve : (n : FNode) → sizeOf (resolve n) ≤ sizeOf n
  | .file proc => by simp [resolve]
  | .dir listing => by simp [resolve]
  | .symlink t => by
    have ih := sizeOf_resolve t
    simp only [resolve, FNode.symlink.sizeOf_spec]
    omega

/-- Termination bound: a successfully read listing is smaller than the node
it was read from. -/
def sizeOf_readDir (n : FNode) (l : List (Except String (String × FNode)))
    (h : readDir n = Except.ok l) : sizeOf l < sizeOf n := by
  have hres := sizeOf_resolve n
  unfold readDir at h
  cases hr : resolve n with
  | file proc => rw [hr] at h; exact absurd h (by simp)
  | symlink t => rw [hr] at h; exact absurd h (by simp)
  | dir listing =>
    rw [hr] at h
    subst h
    rw [hr] at hres
    simp only [FNode.dir.sizeOf_spec, Except.ok.sizeOf_spec] at hres
    omega

/-- The body of `WalkWorker::walk_dir` after `fs::read_dir` succeeded: the
`for entry in ...` loop over the listing.  Each item is first unwrapped
(`entry?`); a directory child (symlink-following test) is recursed into —
`walk_dir` inlined: `read_dir` then the same loop — and a non-directory child
goes through `process_file`.  Any error stops the loop and is propagated by
`?`; entries already sent stay sent.  Returns the emitted entries in order and
the error, if any, that aborted the walk. -/
def walkEntries : List String → List (Except String (String × FNode)) →
    List (List String) × Option String
  | _, [] => ([], none)
  | _, .error e :: _ => ([], some e)
  | path, .ok (name, child) :: rest =>
    let r :=
      if isDir child then
        match hrd : readDir child with
        | .error e => ([], some e)
        | .ok l => walkEntries (path ++ [name]) l
      else processFile (path ++ [name]) child
    match r.2 with
    | some e => (r.1, some e)
    | none =>
      let rr := walkEntries path rest
      (r.1 ++ rr.1, rr.2)
termination_by _ l => sizeOf l
decreasing_by
  · have := sizeOf_readDir child l hrd
    simp only [List.cons.sizeOf_spec, Except.ok.sizeOf_spec, Prod.mk.sizeOf_spec]
    omega
  · simp only [List.cons.sizeOf_spec]
    omega

/-- `WalkWorker::walk_dir`: `fs::read_dir(subdir)?`, then the loop over its
items.  A subdirectory is identified by its path relative to the source root
together with its node. -/
def WalkWorker.walk_dir (path : List String) (n : FNode) :
    List (List String) × Option String :=
  match readDir n with
  | .error e => ([], some e)
  | .ok l => walkEntries path l

/-- `WalkWorker::start`: runs `walk_dir` on the source root and inspects the
outcome — but the `if outcome.is_err()` branch has an empty body (only the
comment `// Send err to output`), so the error is dropped.  The second
component is what the worker surfaces to the orchestrator: always `none`. -/
def WalkWorker.start (source : FNode) : List (List String) × Option String :=
  let outcome := WalkWorker.walk_dir [] source
  (outcome.1, none)

/-- The handling of one already-unwrapped listing item inside the loop of
`walk_dir`: a directory child (symlink-following `is_dir` test) goes through
`walk_dir`, every other child through `process_file`. -/
def walkChild (path : List String) (name : String) (child : FNode) :
    List (List String) × Option String :=
  if isDir child then WalkWorker.walk_dir (path ++ [name]) child
  else processFile (path ++ [name]) child

/-- The `Stats` invariant stated by the spec: the total equals the sum of the
four per-outcome counters. -/
def statsInvariant (s : Stats) : Prop :=
  s.total = s.up_to_date + s.copied + s.symlink_created + s.symlink_updated

/-- A concrete collaborator bundle whose operations all succeed, used to
instantiate theorems about `SyncWorker::sync` at a concrete input. -/
def happyOps : Fsops :=
  { get_rel_path := fun _ _ => .ok ["sub", "f.txt"]
    create_dir_all := fun _ => .ok ()
    sync_entries := fun _ _ => .ok .FileCopied
    copy_permissions := fun _ _ => .ok () }

/-! Helper lemmas about the walk and the statistics accumulator. -/

theorem walkEntries_nil (path : List String) : walkEntries path [] = ([], none) := by
  simp [walkEntries]

theorem walkEntries_cons_error (path : List String) (e : String)
    (rest : List (Except String (String × FNode))) :
    walkEntries path (Except.error e :: rest) = ([], some e) := by
  simp [walkEntries]

theorem walkEntries_cons_ok (path : List String) (name : String) (child : FNode)
    (rest : List (Except String (String × FNode))) :
    walkEntries path (Except.ok (name, child) :: rest) =
      match (walkChild path name child).2 with
      | some e => ((walkChild path name child).1, some e)
      | none =>
        ((walkChild path name child).1 ++ (walkEntries path rest).1,
          (walkEntries path rest).2) := by
  rw [walkEntries]
  unfold walkChild WalkWorker.walk_dir
  cases hd : isDir child with
  | false => simp [hd]
  | true =>
    cases hrd : readDir child with
    | error e => simp [hd, hrd]
    | ok l => simp [hd, hrd]

theorem mem_walkChild_length
    (path : List String) (name : String) (child : FNode) (q : List String)
    (ih : ∀ (lc : List (Except String (String × FNode))) (q2 : List String),
      readDir child = Except.ok lc → q2 ∈ (walkEntries (path ++ [name]) lc).1 →
      (path ++ [name]).length < q2.length)
    (hq : q ∈ (walkChild path name child).1) : path.length < q.length := by
  unfold walkChild at hq
  by_cases hd : isDir child = true
  · rw [if_pos hd] at hq
    unfold WalkWorker.walk_dir at hq
    cases hrd : readDir child with
    | error e2 => rw [hrd] at hq; simp at hq
    | ok lc =>
      rw [hrd] at hq
      have hlen := ih lc q hrd hq
      simp only [List.length_append, List.length_cons, List.length_nil] at hlen
      omega
  · rw [if_neg hd] at hq
    unfold processFile at hq
    cases hp : procResult child with
    | error e2 => rw [hp] at hq; simp at hq
    | ok u =>
      rw [hp] at hq
      simp only [List.mem_singleton] at hq
      subst hq
      simp

theorem mem_walkEntries_length_aux :
    ∀ (N : Nat) (path : List String) (l : List (Except String (String × FNode)))
      (q : List String), sizeOf l ≤ N → q ∈ (walkEntries path l).1 →
      path.length < q.length := by
  intro N
  induction N with
  | zero =>
    intro path l q hN hq
    exfalso
    cases l <;> simp at hN
  | succ N ih =>
    intro path l q hN hq
    match l with
    | [] => rw [walkEntries_nil] at hq; simp at hq
    | .error e :: rest => rw [walkEntries_cons_error] at hq; simp at hq
    | .ok (name, child) :: rest =>
      rw [walkEntries_cons_ok] at hq
      have hrest : sizeOf rest ≤ N := by
        simp only [List.cons.sizeOf_spec] at hN
        omega
      have hchild : ∀ q2 ∈ (walkChild path name child).1, path.length < q2.length := by
        intro q2 hq2
        refine mem_walkChild_length path name child q2 ?_ hq2
        intro lc q3 hrd hq3
        have hsz : sizeOf lc ≤ N := by
          have h1 := sizeOf_readDir child lc hrd
          simp only [List.cons.sizeOf_spec, Except.ok.sizeOf_spec,
            Prod.mk.sizeOf_spec] at hN
          omega
        exact ih (path ++ [name]) lc q3 hsz hq3
      cases hc : (walkChild path name child).2 with
      | none =>
        rw [hc] at hq
        simp only [List.mem_append] at hq
        rcases hq with h1 | h2
        · exact hchild q h1
        · exact ih path rest q hrest h2
      | some e =>
        rw [hc] at hq
        simp only at hq
        exact hchild q hq

/-- Every entry emitted below a subdirectory lies strictly below it: its
relative path is longer than the subdirectory path. -/
theorem mem_walkEntries_length (path : List String)
    (l : List (Except String (String × FNode))) (q : List String)
    (hq : q ∈ (walkEntries path l).1) : path.length < q.length :=
  mem_walkEntries_length_aux (sizeOf l) path l q le_rfl hq

/-- Once the walk of a listing prefix has failed, appending further listing
items (arbitrary subtrees) changes nothing: the error is propagated and no
entry of the appended part is ever emitted. -/
theorem walkEntries_append_error :
    ∀ (l1 : List (Except String (String × FNode))) (path : List String)
      (l2 : List (Except String (String × FNode))) (e : String),
      (walkEntries path l1).2 = some e →
      walkEntries path (l1 ++ l2) = ((walkEntries path l1).1, some e) := by
  intro l1
  induction l1 with
  | nil => intro path l2 e h; rw [walkEntries_nil] at h; simp at h
  | cons x rest ih =>
    intro path l2 e h
    cases x with
    | error e0 =>
      rw [walkEntries_cons_error] at h
      simp only [Option.some.injEq] at h
      subst h
      rw [List.cons_append]
      simp [walkEntries_cons_error]
    | ok pr =>
      obtain ⟨name, child⟩ := pr
      rw [List.cons_append]
      simp only [walkEntries_cons_ok] at h ⊢
      cases hc : (walkChild path name child).2 with
      | some e0 =>
        rw [hc] at h
        simp at h
        subst h
        simp
      | none =>
        rw [hc] at h
        simp at h
        rw [ih path l2 e h]

theorem statsInvariant_add_outcome (s : Stats) (o : SyncOutcome)
    (h : statsInvariant s) : statsInvariant (s.add_outcome o) := by
  cases o <;> simp [statsInvariant, Stats.add_outcome] at h ⊢ <;> omega

theorem statsInvariant_foldl (l : List SyncOutcome) :
    ∀ s : Stats, statsInvariant s → statsInvariant (l.foldl Stats.add_outcome s) := by
  induction l with
  | nil => intro s h; simpa using h
  | cons o rest ih => intro s h; exact ih _ (statsInvariant_add_outcome s o h)

/-! The claims. -/

/-- C1: every `Stats` value reachable from `Stats::new()` by a sequence of
`add_outcome` calls (the only mutator in the module) satisfies
`total = up_to_date + copied + symlink_created + symlink_updated`, and
`Stats::new()` starts all five counters at zero. -/
theorem stats_total_invariant (outcomes : List SyncOutcome) :
    (Stats.new.total = 0 ∧ Stats.new.up_to_date = 0 ∧ Stats.new.copied = 0 ∧
      Stats.new.symlink_created = 0 ∧ Stats.new.symlink_updated = 0)
    ∧ (Stats.applyOutcomes outcomes).total =
        (Stats.applyOutcomes outcomes).up_to_date +
        (Stats.applyOutcomes outcomes).copied +
        (Stats.applyOutcomes outcomes).symlink_created +
        (Stats.applyOutcomes outcomes).symlink_updated := by
  refine ⟨⟨rfl, rfl, rfl, rfl, rfl⟩, ?_⟩
  exact statsInvariant_foldl outcomes Stats.new rfl

/-- C4: each `DoneSyncing(outcome)` event consumed by `ProgressWorker` applies
`add_outcome` exactly once, which increments `total` by one and exactly the
counter matching the outcome variant by one, leaving the other three counters
unchanged. -/
theorem add_outcome_exactly_once_per_event (s : Stats) (o : SyncOutcome)
    (rest : List Progress) :
    ProgressWorker.step s (Progress.DoneSyncing o) = some (s.add_outcome o)
    ∧ ProgressWorker.start s (Progress.DoneSyncing o :: rest) =
        ProgressWorker.start (s.add_outcome o) rest
    ∧ (s.add_outcome o).total = s.total + 1
    ∧ s.add_outcome SyncOutcome.FileCopied =
        { s with total := s.total + 1, copied := s.copied + 1 }
    ∧ s.add_outcome SyncOutcome.UpToDate =
        { s with total := s.total + 1, up_to_date := s.up_to_date + 1 }
    ∧ s.add_outcome SyncOutcome.SymlinkCreated =
        { s with total := s.total + 1, symlink_created := s.symlink_created + 1 }
    ∧ s.add_outcome SyncOutcome.SymlinkUpdated =
        { s with total := s.total + 1, symlink_updated := s.symlink_updated + 1 } := by
  refine ⟨rfl, rfl, ?_, rfl, rfl, rfl, rfl⟩
  cases o <;> rfl

/-- C2 (code bug, `// FIXME: handle errors` in the source): on the first entry
whose `sync` fails, `SyncWorker::start` panics on `unwrap` — no failure event
is sent and the remaining entries are never processed — instead of reporting a
per-entry failure outcome and continuing, as the spec requires. -/
theorem sync_worker_aborts_on_first_error :
    SyncWorker.start
        [Except.error "No such file or directory", Except.ok SyncOutcome.FileCopied] =
      ([], true)
    ∧ (∀ (e : String) (rest : List (Except String SyncOutcome)),
        SyncWorker.start (Except.error e :: rest) = ([], true))
    ∧ SyncWorker.start [Except.ok SyncOutcome.FileCopied] =
        ([Progress.DoneSyncing SyncOutcome.FileCopied], false) :=
  ⟨rfl, fun _ _ => rfl, rfl⟩

/-- C3 (code bug, empty `if outcome.is_err()` body whose only content is the
comment `// Send err to output`): `WalkWorker::start` discards the error of
the top-level walk, so nothing reaches the orchestrator even when the walk
failed. -/
theorem walk_worker_drops_walk_error :
    (∀ source : FNode, (WalkWorker.start source).2 = none)
    ∧ WalkWorker.walk_dir [] (FNode.dir (Except.error "Permission denied")) =
        ([], some "Permission denied")
    ∧ WalkWorker.start (FNode.dir (Except.error "Permission denied")) = ([], none) :=
  ⟨fun _ => rfl, rfl, rfl⟩

/-- C5 counterexample: a `Syncing` event with `size == 0` makes the unguarded
division `(done * 100) / size` fault (the `none` models the Rust panic), so
the handling is not total at `size == 0` — there is no guard and no
`percent = 100` special case. -/
theorem progress_syncing_zero_size_faults :
    ProgressWorker.step Stats.new (Progress.Syncing "file" 0 0) = none := rfl

/-- C5 (amended): the `Syncing` handling is total exactly on the producer
contract `size > 0`, where it leaves the stats unchanged; at `size == 0` the
unguarded division faults. -/
theorem progress_syncing_total_iff_positive_size (s : Stats) (d : String)
    (done size : Nat) :
    (0 < size → ProgressWorker.step s (Progress.Syncing d size done) = some s)
    ∧ ProgressWorker.step s (Progress.Syncing d 0 done) = none := by
  constructor
  · intro h
    have hz : size ≠ 0 := Nat.pos_iff_ne_zero.mp h
    simp [ProgressWorker.step, syncingPercent, hz]
  · rfl

theorem progress_syncing_total_iff_positive_size_witness :
    0 < 4 ∧ ProgressWorker.step Stats.new (Progress.Syncing "f" 4 3) = some Stats.new :=
  ⟨by decide, (progress_syncing_total_iff_positive_size Stats.new "f" 3 4).1 (by decide)⟩

/-- C6 counterexample: with the producer contract satisfied
(`size = 2 ^ 63 > 0`, strictly increasing `done`, `done ≤ size`), the `usize`
product `done * 100` wraps at `2 ^ 64` (here `2 ^ 62 * 100 = 25 * 2 ^ 64`
wraps to 0), so the computed percent drops from 1 to 0: it is neither
`floor (done * 100 / size)` (which is 50) nor monotone. -/
theorem syncing_percent_overflow :
    (0 < 2 ^ 63 ∧ 2 ^ 57 < 2 ^ 62 ∧ 2 ^ 57 ≤ 2 ^ 63 ∧ 2 ^ 62 ≤ 2 ^ 63)
    ∧ syncingPercent (2 ^ 57) (2 ^ 63) = some 1
    ∧ syncingPercent (2 ^ 62) (2 ^ 63) = some 0
    ∧ 2 ^ 62 * 100 / 2 ^ 63 = 50
    ∧ ¬(1 : Nat) ≤ 0 := by
  refine ⟨by norm_num, ?_, ?_, by norm_num, by norm_num⟩
  · simp only [syncingPercent, USIZE]
    norm_num
  · simp only [syncingPercent, USIZE]
    norm_num

/-- C6 (amended): for every event sequence satisfying the producer contract
(`size > 0`, strictly increasing `done`, `done ≤ size`) in which the `usize`
product does not overflow (`done * 100 < 2 ^ 64`, true for every `done` below
about `1.8 * 10 ^ 17`), the computed percent equals
`floor (done * 100 / size)`, is monotonically non-decreasing across the
sequence, and never exceeds 100. -/
theorem syncing_percent_contract (size : Nat) (dones : List Nat)
    (hsize : 0 < size)
    (hdone : ∀ d ∈ dones, d ≤ size ∧ d * 100 < USIZE)
    (hinc : List.Chain' (· < ·) dones) :
    dones.map (fun d => syncingPercent d size) =
      dones.map (fun d => some (d * 100 / size))
    ∧ List.Chain' (· ≤ ·) (dones.map (fun d => d * 100 / size))
    ∧ ∀ p ∈ dones.map (fun d => d * 100 / size), p ≤ 100 := by
  have hz : size ≠ 0 := Nat.pos_iff_ne_zero.mp hsize
  refine ⟨?_, ?_, ?_⟩
  · apply List.map_congr_left
    intro d hd
    have hlt := (hdone d hd).2
    simp [syncingPercent, hz, Nat.mod_eq_of_lt hlt]
  · rw [List.chain'_map]
    refine hinc.imp ?_
    intro a b hab
    exact Nat.div_le_div_right (mul_le_mul_right' hab.le 100)
  · intro p hp
    rw [List.mem_map] at hp
    obtain ⟨d, hd, rfl⟩ := hp
    have hds := (hdone d hd).1
    calc d * 100 / size ≤ size * 100 / size :=
          Nat.div_le_div_right (mul_le_mul_right' hds 100)
      _ = 100 := by rw [mul_comm]; exact Nat.mul_div_cancel 100 hsize

theorem syncing_percent_contract_witness :
    (0 < 200 ∧ (∀ d ∈ [50, 100, 200], d ≤ 200 ∧ d * 100 < USIZE)
      ∧ List.Chain' (· < ·) [50, 100, 200])
    ∧ ([50, 100, 200].map (fun d => syncingPercent d 200) =
        [50, 100, 200].map (fun d => some (d * 100 / 200))
      ∧ List.Chain' (· ≤ ·) ([50, 100, 200].map (fun d => d * 100 / 200))
      ∧ ∀ p ∈ [50, 100, 200].map (fun d => d * 100 / 200), p ≤ 100) :=
  ⟨⟨by decide, by decide, by norm_num [List.chain'_cons]⟩,
    syncing_percent_contract 200 [50, 100, 200] (by decide) (by decide)
      (by norm_num [List.chain'_cons])⟩

/-- C7: for an Entry whose path is under the source root and whose relative
path has a parent component (and with the intermediate collaborator steps
succeeding, as in the spec's step list), `SyncWorker::sync` builds the
destination Entry at `destination_root / relative_path` with the relative
path's string as description, and invokes `copy_permissions` on the pair iff
`preserve_permissions` is set, which defaults to true. -/
theorem sync_builds_dest_entry (ops : Fsops) (source destination : List String)
    (src_entry : Entry) (opts : SyncOptions) (rel_path parent_rel : List String)
    (outcome : SyncOutcome)
    (hrel : ops.get_rel_path src_entry.path source = Except.ok rel_path)
    (hparent : pathParent rel_path = some parent_rel)
    (hmkdir : ops.create_dir_all (destination ++ parent_rel) = Except.ok ())
    (hsync : ops.sync_entries src_entry
        (Entry.new (pathToString rel_path) (destination ++ rel_path)) =
      Except.ok outcome) :
    (SyncWorker.sync ops source destination src_entry opts).dest_entry =
      some (Entry.new (pathToString rel_path) (destination ++ rel_path))
    ∧ (SyncWorker.sync ops source destination src_entry opts).permissions_invoked =
        opts.preserve_permissions
    ∧ SyncOptions.new.preserve_permissions = true := by
  cases hp : opts.preserve_permissions with
  | false => simp [SyncWorker.sync, SyncOptions.new, hrel, hparent, hmkdir, hsync, hp]
  | true =>
    cases hcp : ops.copy_permissions src_entry
        (Entry.new (pathToString rel_path) (destination ++ rel_path)) with
    | error e =>
      simp [SyncWorker.sync, SyncOptions.new, hrel, hparent, hmkdir, hsync, hp, hcp]
    | ok u =>
      simp [SyncWorker.sync, SyncOptions.new, hrel, hparent, hmkdir, hsync, hp, hcp]

theorem sync_builds_dest_entry_witness :
    (happyOps.get_rel_path (Entry.new "sub/f.txt" ["src", "sub", "f.txt"]).path ["src"] =
        Except.ok ["sub", "f.txt"]
      ∧ pathParent ["sub", "f.txt"] = some ["sub"]
      ∧ happyOps.create_dir_all (["dst"] ++ ["sub"]) = Except.ok ()
      ∧ happyOps.sync_entries (Entry.new "sub/f.txt" ["src", "sub", "f.txt"])
          (Entry.new (pathToString ["sub", "f.txt"]) (["dst"] ++ ["sub", "f.txt"])) =
        Except.ok SyncOutcome.FileCopied)
    ∧ ((SyncWorker.sync happyOps ["src"] ["dst"]
          (Entry.new "sub/f.txt" ["src", "sub", "f.txt"]) SyncOptions.new).dest_entry =
        some (Entry.new (pathToString ["sub", "f.txt"]) (["dst"] ++ ["sub", "f.txt"]))
      ∧ (SyncWorker.sync happyOps ["src"] ["dst"]
            (Entry.new "sub/f.txt" ["src", "sub", "f.txt"])
            SyncOptions.new).permissions_invoked =
          SyncOptions.new.preserve_permissions
      ∧ SyncOptions.new.preserve_permissions = true) :=
  ⟨⟨rfl, by simp [pathParent], rfl, rfl⟩,
    sync_builds_dest_entry happyOps ["src"] ["dst"]
      (Entry.new "sub/f.txt" ["src", "sub", "f.txt"]) SyncOptions.new
      ["sub", "f.txt"] ["sub"] SyncOutcome.FileCopied rfl (by simp [pathParent]) rfl rfl⟩

/-- C8: `Syncer::sync` returns `Ok` with the stats produced by the progress
worker exactly when all three thread joins succeed, and the matching
human-readable "Could not join ... thread" message when one fails; it returns
no other results. -/
theorem syncer_sync_results (w s : Option Unit) (p : Option Stats) :
    ((∃ stats, Syncer.sync w s p = Except.ok stats) ↔
      w.isSome = true ∧ s.isSome = true ∧ p.isSome = true)
    ∧ (∀ stats, w.isSome = true → s.isSome = true → p = some stats →
        Syncer.sync w s p = Except.ok stats)
    ∧ (w = none → Syncer.sync w s p = Except.error "Could not join walker thread")
    ∧ (w.isSome = true → s = none →
        Syncer.sync w s p = Except.error "Could not join syncer thread")
    ∧ (w.isSome = true → s.isSome = true → p = none →
        Syncer.sync w s p = Except.error "Could not join progress thread") := by
  cases w <;> cases s <;> cases p <;> simp [Syncer.sync]

theorem syncer_sync_results_witness :
    Syncer.sync (some ()) (some ()) (some Stats.new) = Except.ok Stats.new :=
  (syncer_sync_results (some ()) (some ()) (some Stats.new)).2.1 Stats.new rfl rfl rfl

/-- C9: a source entry that is a symlink whose target is a directory passes
the symlink-following `is_dir` test, so the walk recurses into the target
directory (the entry's contribution is exactly the walk of the target's
listing) and never emits the symlink itself as a single Entry. -/
theorem walk_follows_symlink_to_dir (path : List String) (name : String) (d : FNode)
    (l : List (Except String (String × FNode)))
    (h : resolve d = FNode.dir (Except.ok l)) :
    isDir (FNode.symlink d) = true
    ∧ walkEntries path [Except.ok (name, FNode.symlink d)] =
        walkEntries (path ++ [name]) l
    ∧ (path ++ [name]) ∉ (walkEntries path [Except.ok (name, FNode.symlink d)]).1 := by
  have hres : resolve (FNode.symlink d) = FNode.dir (Except.ok l) := by
    rw [resolve]; exact h
  have hisd : isDir (FNode.symlink d) = true := by rw [isDir, hres]
  have hrd : readDir (FNode.symlink d) = Except.ok l := by rw [readDir, hres]
  have hwc : walkChild path name (FNode.symlink d) = walkEntries (path ++ [name]) l := by
    unfold walkChild
    rw [if_pos hisd]
    unfold WalkWorker.walk_dir
    rw [hrd]
  have heq : walkEntries path [Except.ok (name, FNode.symlink d)] =
      walkEntries (path ++ [name]) l := by
    rcases hW : walkEntries (path ++ [name]) l with ⟨es, err⟩
    rw [walkEntries_cons_ok, hwc, hW, walkEntries_nil]
    cases err <;> simp
  refine ⟨hisd, heq, ?_⟩
  rw [heq]
  intro hmem
  exact absurd (mem_walkEntries_length (path ++ [name]) l (path ++ [name]) hmem)
    (by simp)

theorem walk_follows_symlink_to_dir_witness :
    resolve (FNode.dir (Except.ok [Except.ok ("b", FNode.file (Except.ok ()))])) =
      FNode.dir (Except.ok [Except.ok ("b", FNode.file (Except.ok ()))])
    ∧ (isDir (FNode.symlink (FNode.dir
          (Except.ok [Except.ok ("b", FNode.file (Except.ok ()))]))) = true
      ∧ walkEntries [] [Except.ok ("link", FNode.symlink (FNode.dir
            (Except.ok [Except.ok ("b", FNode.file (Except.ok ()))])))] =
          walkEntries ([] ++ ["link"]) [Except.ok ("b", FNode.file (Except.ok ()))]
      ∧ ([] ++ ["link"]) ∉ (walkEntries []
          [Except.ok ("link", FNode.symlink (FNode.dir
            (Except.ok [Except.ok ("b", FNode.file (Except.ok ()))])))]).1) :=
  ⟨rfl, walk_follows_symlink_to_dir [] "link"
      (FNode.dir (Except.ok [Except.ok ("b", FNode.file (Except.ok ()))]))
      [Except.ok ("b", FNode.file (Except.ok ()))] rfl⟩

/-- C10: the first error anywhere in the walk stops the entire enumeration:
appended listing items (unrelated subtrees) contribute nothing, the enclosing
`walk_dir` returns the same error, and one recursion level up the remaining
siblings are likewise never walked. -/
theorem walk_error_stops_enumeration (path0 : List String) (nm : String)
    (l1 l2 rest : List (Except String (String × FNode))) (e : String)
    (h : (walkEntries (path0 ++ [nm]) l1).2 = some e) :
    walkEntries (path0 ++ [nm]) (l1 ++ l2) =
      ((walkEntries (path0 ++ [nm]) l1).1, some e)
    ∧ WalkWorker.walk_dir (path0 ++ [nm]) (FNode.dir (Except.ok (l1 ++ l2))) =
        ((walkEntries (path0 ++ [nm]) l1).1, some e)
    ∧ walkEntries path0 (Except.ok (nm, FNode.dir (Except.ok (l1 ++ l2))) :: rest) =
        ((walkEntries (path0 ++ [nm]) l1).1, some e) := by
  have h1 := walkEntries_append_error l1 (path0 ++ [nm]) l2 e h
  have h2 : WalkWorker.walk_dir (path0 ++ [nm]) (FNode.dir (Except.ok (l1 ++ l2))) =
      ((walkEntries (path0 ++ [nm]) l1).1, some e) := by
    unfold WalkWorker.walk_dir
    rw [show readDir (FNode.dir (Except.ok (l1 ++ l2))) = Except.ok (l1 ++ l2) from rfl]
    exact h1
  have h3 : walkEntries path0 (Except.ok (nm, FNode.dir (Except.ok (l1 ++ l2))) :: rest) =
      ((walkEntries (path0 ++ [nm]) l1).1, some e) := by
    rw [walkEntries_cons_ok]
    have hwc : walkChild path0 nm (FNode.dir (Except.ok (l1 ++ l2))) =
        ((walkEntries (path0 ++ [nm]) l1).1, some e) := by
      unfold walkChild
      rw [if_pos (show isDir (FNode.dir (Except.ok (l1 ++ l2))) = true from rfl)]
      exact h2
    rw [hwc]
  exact ⟨h1, h2, h3⟩

theorem walk_error_stops_enumeration_witness :
    (walkEntries ([] ++ ["a"]) [Except.ok ("bad", FNode.file (Except.error "boom"))]).2 =
      some "boom"
    ∧ walkEntries [] (Except.ok ("a", FNode.dir (Except.ok
          ([Except.ok ("bad", FNode.file (Except.error "boom"))] ++
            [Except.ok ("c", FNode.file (Except.ok ()))]))) ::
        [Except.ok ("d", FNode.file (Except.ok ()))]) =
      ((walkEntries ([] ++ ["a"])
          [Except.ok ("bad", FNode.file (Except.error "boom"))]).1, some "boom") := by
  have h : (walkEntries ([] ++ ["a"])
      [Except.ok ("bad", FNode.file (Except.error "boom"))]).2 = some "boom" := by
    simp [walkEntries, walkChild, isDir, resolve, readDir, processFile, procResult]
  exact ⟨h, (walk_error_stops_enumeration [] "a"
    [Except.ok ("bad", FNode.file (Except.error "boom"))]
    [Except.ok ("c", FNode.file (Except.ok ()))]
    [Except.ok ("d", FNode.file (Except.ok ()))] "boom" h).2.2⟩
